import Mathlib

/-!
Verification of the movie-recommender core in `src/app.py`.

The reproducible core is the function `recommend` (app.py lines 89-111):
given a title, it locates the first matching row of the `movies` table,
reads the corresponding row of the precomputed `similarity` matrix, sorts
all `(index, score)` pairs by score descending with Python's stable sort,
drops the head (`[1:6]`), looks up the five candidate records, and returns
three parallel lists (names, poster URLs, TMDB ids), padding names and
posters - but not ids - to length 5.

The embedding below is a direct translation:
* pandas rows become `MovieRecord`; the `movies` DataFrame a `List MovieRecord`;
* the similarity matrix a `List (List ℚ)` (scores are only compared, never
  combined arithmetically, so rationals model the float scores faithfully
  for every property considered here);
* Python exceptions become `Except PyError`; the pandas `.index[0]` on an
  empty selection and out-of-range `.iloc` both raise `IndexError`,
  modelled by `PyError.indexError`;
* `sorted(..., reverse=True, key=lambda x: x[1])` is a stable descending
  sort on the score component, modelled by `List.insertionSort` with the
  relation `fun a b => b.2 ≤ a.2`, which is extensionally the same stable
  descending ordering;
* the network-facing `fetch_poster` is modelled as a pure function of the
  outcome of its HTTP request (`HttpOutcome`), since every exception inside
  its `try` block is caught and collapsed to the placeholder URL.
-/

namespace MovieRec

/-- One row of the `movies` DataFrame: a title and the TMDB id stored in the
`movie_id` column (app.py line 100). -/
structure MovieRecord where
  title : String
  movie_id : Int
deriving Repr, DecidableEq

/-- The placeholder URL constant (app.py line 59). -/
def PLACEHOLDER : String := "https://via.placeholder.com/500x750?text=No+Image"

/-- Python exceptions relevant to the core. `indexError` models the
out-of-range fault raised by pandas `.index[0]` on an empty selection and by
out-of-range `.iloc`; `notFoundError` models the typed "not found" error that
the specification prescribes (the code never raises it). -/
inductive PyError where
  | indexError
  | notFoundError
deriving Repr, DecidableEq

/-- Outcome of the HTTP request made by `fetch_poster` (app.py lines 80-84).
`failure` covers every exception path inside the `try` block: network error,
timeout, non-2xx status surviving the retry adapter (`raise_for_status`), or
a JSON decoding error. `success` carries the `poster_path` and
`backdrop_path` fields of the decoded JSON object (`none` when the field is
absent or JSON null). -/
inductive HttpOutcome where
  | failure
  | success (poster_path backdrop_path : Option String)

/-- Python truthiness of an optional string: `None` and `""` are falsy. -/
def pyTruthy : Option String → Bool
  | none => false
  | some s => !(s == "")

/-- Shallow embedding of `fetch_poster` (app.py lines 76-87) as a function of
the HTTP outcome. `path = data.get('poster_path') or data.get('backdrop_path')`
uses Python `or`, which falls through on falsy values (`None`, `""`); the
final `if path` checks truthiness again. Every exception is caught and
returns `PLACEHOLDER`. -/
def fetch_poster (o : HttpOutcome) : String :=
  match o with
  | .failure => PLACEHOLDER
  | .success pp bp =>
    match (if pyTruthy pp then pp else bp) with
    | some p => if p = "" then PLACEHOLDER else "https://image.tmdb.org/t/p/w500" ++ p
    | none => PLACEHOLDER

/-- Lift an optional lookup to `Except`, raising `indexError` on `none`,
exactly as pandas raises `IndexError` for `.index[0]` on an empty match set
and for out-of-range `.iloc`. -/
def exceptOfOption {α : Type} : Option α → Except PyError α
  | some a => .ok a
  | none => .error .indexError

/-- Embedding of `movies[movies['title'] == movie].index[0]` (app.py line
90): the index of the first record whose title equals `movie`, `none` when no
record matches (in which case the source raises `IndexError`). -/
def find_index (movies : List MovieRecord) (movie : String) : Option Nat :=
  match movies with
  | [] => none
  | r :: rest =>
    if r.title = movie then some 0 else (find_index rest movie).map (· + 1)

/-- Embedding of `sorted(list(enumerate(distances)), reverse=True, key=lambda
x: x[1])` (app.py line 92): a stable sort, descending on the score component.
`List.insertionSort` places each element before the first existing element
`b` with `b.2 ≤ a.2`, which yields exactly the stable descending order of
CPython's `sorted` with `reverse=True`. -/
def pySortedDesc (l : List (Nat × ℚ)) : List (Nat × ℚ) :=
  List.insertionSort (fun a b => b.2 ≤ a.2) l

/-- The full ranking of one similarity row: `(index, score)` pairs, score
descending, ties in original index order. -/
def rankedPairs (distances : List ℚ) : List (Nat × ℚ) :=
  pySortedDesc distances.enum

/-- The slice `[1:6]` of the ranking (app.py line 92): skip the head, take
the next five pairs. -/
def selected (distances : List ℚ) : List (Nat × ℚ) :=
  ((rankedPairs distances).drop 1).take 5

/-- Embedding of the `for i in movies_list` loop body lookups (app.py lines
98-103): `movies.iloc[i[0]]` for each selected pair, raising `IndexError` if
an index is out of range. -/
def lookupRecs (movies : List MovieRecord) :
    List (Nat × ℚ) → Except PyError (List MovieRecord)
  | [] => .ok []
  | p :: rest =>
    match movies.get? p.1 with
    | none => .error .indexError
    | some r =>
      match lookupRecs movies rest with
      | .error e => .error e
      | .ok rs => .ok (r :: rs)

/-- Shallow embedding of `recommend` (app.py lines 89-111). The poster
collaborator is passed in as `fetch : Int → String` (the source calls the
global `fetch_poster` on each TMDB id). Returns the three parallel lists
`(recommended_movies, recommended_movies_poster, recommended_movies_ids)`;
the `while` loop at lines 107-109 pads the names and posters lists - and
only those two - up to length 5. -/
def recommend (movies : List MovieRecord) (similarity : List (List ℚ))
    (fetch : Int → String) (movie : String) :
    Except PyError (List String × List String × List Int) :=
  match exceptOfOption (find_index movies movie) with
  | .error e => .error e
  | .ok movie_index =>
    match exceptOfOption (similarity.get? movie_index) with
    | .error e => .error e
    | .ok distances =>
      match lookupRecs movies (selected distances) with
      | .error e => .error e
      | .ok recs =>
        let recommended_movies := recs.map (fun r => r.title)
        let recommended_movies_poster := recs.map (fun r => fetch r.movie_id)
        let recommended_movies_ids := recs.map (fun r => r.movie_id)
        .ok (recommended_movies ++
               List.replicate (5 - recommended_movies.length) "N/A",
             recommended_movies_poster ++
               List.replicate (5 - recommended_movies_poster.length) PLACEHOLDER,
             recommended_movies_ids)

/-- The process-wide state of app.py: the `movies` table and the
`similarity` matrix, loaded once at startup (app.py lines 115-119). -/
structure AppState where
  movies : List MovieRecord
  similarity : List (List ℚ)

/-- `recommend` threaded through the process state: the source function only
reads the module-level globals `movies` and `similarity` and assigns to
neither, so the state after the call is the state before it. -/
def recommendApp (st : AppState) (fetch : Int → String) (movie : String) :
    Except PyError (List String × List String × List Int) × AppState :=
  (recommend st.movies st.similarity fetch movie, st)

/-- Strict ranking order on `(index, score)` pairs: higher score first, ties
broken by smaller original index. -/
def rankLt (a b : Nat × ℚ) : Prop := b.2 < a.2 ∨ (a.2 = b.2 ∧ a.1 < b.1)

instance : DecidableRel rankLt := fun a b => by
  unfold rankLt; infer_instance

/-- The three-movie catalog of the specification's scenario (§8). -/
def catalog3 : List MovieRecord := [⟨"A", 1⟩, ⟨"B", 2⟩, ⟨"C", 3⟩]

/-- The similarity matrix of the specification's scenario (§8). -/
def sim3 : List (List ℚ) :=
  [[1, 9/10, 1/10], [9/10, 1, 2/10], [1/10, 2/10, 1]]

/-- If `b` scores no higher than `a` and `a` has the smaller original index,
then `a` ranks strictly before `b`. -/
theorem rankLt_of_le {a b : Nat × ℚ} (h1 : b.2 ≤ a.2) (h2 : a.1 < b.1) :
    rankLt a b := by
  rcases lt_or_eq_of_le h1 with h | h
  · exact Or.inl h
  · exact Or.inr ⟨h.symm, h2⟩

/-- Inserting an element whose original index precedes everything already in
a `rankLt`-ordered list keeps the list `rankLt`-ordered: the stability step
of the sort. -/
theorem orderedInsert_rank (a : Nat × ℚ) :
    ∀ s : List (Nat × ℚ), s.Pairwise rankLt → (∀ b ∈ s, a.1 < b.1) →
      (List.orderedInsert (fun a b => b.2 ≤ a.2) a s).Pairwise rankLt
  | [], _, _ => List.pairwise_singleton _ _
  | y :: ys, hs, ha => by
    rw [List.pairwise_cons] at hs
    obtain ⟨hy, hys⟩ := hs
    by_cases h : y.2 ≤ a.2
    · rw [List.orderedInsert, if_pos h]
      refine List.pairwise_cons.mpr ⟨?_, List.pairwise_cons.mpr ⟨hy, hys⟩⟩
      intro z hz
      rcases List.mem_cons.mp hz with rfl | hz
      · exact rankLt_of_le h (ha z (List.mem_cons_self _ _))
      · have hz2 : z.2 ≤ a.2 := by
          rcases hy z hz with h' | h'
          · exact le_trans (le_of_lt h') h
          · exact le_trans (le_of_eq h'.1.symm) h
        exact rankLt_of_le hz2 (ha z (List.mem_cons_of_mem _ hz))
    · rw [List.orderedInsert, if_neg h]
      refine List.pairwise_cons.mpr ⟨?_, ?_⟩
      · intro c hc
        rcases (List.mem_orderedInsert _).mp hc with rfl | hc
        · exact Or.inl (lt_of_not_le h)
        · exact hy c hc
      · exact orderedInsert_rank a ys hys
          (fun b hb => ha b (List.mem_cons_of_mem _ hb))

/-- Stability of the embedded stable descending sort: on input whose first
components are strictly increasing (as `enumerate` produces), the output is
strictly ordered by `rankLt` - scores descending, ties broken by the
original index. -/
theorem pySortedDesc_pairwise :
    ∀ l : List (Nat × ℚ), l.Pairwise (fun a b => a.1 < b.1) →
      (pySortedDesc l).Pairwise rankLt
  | [], _ => List.Pairwise.nil
  | a :: l, hl => by
    rw [List.pairwise_cons] at hl
    obtain ⟨ha, hl'⟩ := hl
    have ih := pySortedDesc_pairwise l hl'
    show (List.orderedInsert _ a (pySortedDesc l)).Pairwise rankLt
    exact orderedInsert_rank a (pySortedDesc l) ih
      (fun b hb => ha b ((List.mem_insertionSort _).mp hb))

/-- `enumFrom` produces pairs with strictly increasing first components. -/
theorem enumFrom_pairwise_fst (l : List ℚ) :
    ∀ n : Nat, (l.enumFrom n).Pairwise (fun a b => a.1 < b.1) := by
  induction l with
  | nil => intro n; simp
  | cons x xs ih =>
    intro n
    simp only [List.enumFrom, List.pairwise_cons]
    refine ⟨fun p hp => ?_, ih (n + 1)⟩
    have := List.le_fst_of_mem_enumFrom hp
    omega

/-- `enumerate distances` has strictly increasing first components. -/
theorem enum_pairwise_fst (l : List ℚ) :
    l.enum.Pairwise (fun a b => a.1 < b.1) := by
  simpa [List.enum] using enumFrom_pairwise_fst l 0

/-- Membership in `enumerate distances` determines the score at that index. -/
theorem get?_of_mem_enum {l : List ℚ} {p : Nat × ℚ} (h : p ∈ l.enum) :
    l.get? p.1 = some p.2 := by
  rw [List.get?_eq_getElem?]
  exact List.mem_enum_iff_getElem?.mp h

/-- An indexable entry appears in `enumerate distances`. -/
theorem mem_enum_of_get? {l : List ℚ} {i : Nat} {v : ℚ} (h : l.get? i = some v) :
    (i, v) ∈ l.enum := by
  rw [List.get?_eq_getElem?] at h
  exact List.mem_enum_iff_getElem?.mpr h

/-- The full ranking of any similarity row is strictly ordered by `rankLt`:
scores are non-increasing, and equal scores keep the original catalog-index
order. -/
theorem rankedPairs_pairwise (d : List ℚ) : (rankedPairs d).Pairwise rankLt :=
  pySortedDesc_pairwise d.enum (enum_pairwise_fst d)

/-- After dropping the head of the sorted list, no surviving pair carries
the query's own index - provided the self score `v` is the row maximum and
is first among its ties. This is the hidden correctness condition of the
`[1:6]` slice at app.py line 92. -/
theorem drop_one_ne_idx {d : List ℚ} {idx : Nat} {v : ℚ}
    (hv : d.get? idx = some v)
    (hmax : ∀ p ∈ d.enum, p.2 ≤ v ∧ (p.1 < idx → p.2 < v)) :
    ∀ p ∈ (rankedPairs d).drop 1, p.1 ≠ idx := by
  have hperm : List.Perm (rankedPairs d) d.enum := List.perm_insertionSort _ _
  have hmem : (idx, v) ∈ d.enum := mem_enum_of_get? hv
  have hnodupE : d.enum.Nodup :=
    (enum_pairwise_fst d).imp (fun h => by intro heq; rw [heq] at h; exact lt_irrefl _ h)
  have hpw : (rankedPairs d).Pairwise rankLt := rankedPairs_pairwise d
  have hmemS : (idx, v) ∈ rankedPairs d := hperm.mem_iff.mpr hmem
  cases hs : rankedPairs d with
  | nil => rw [hs] at hmemS; exact absurd hmemS (List.not_mem_nil _)
  | cons h tl =>
    rw [hs] at hperm hpw hmemS
    have hpwc := List.pairwise_cons.mp hpw
    have hh : h = (idx, v) := by
      by_contra hne
      have htlmem : (idx, v) ∈ tl := by
        rcases List.mem_cons.mp hmemS with heq | htl
        · exact absurd heq.symm hne
        · exact htl
      have hrank : rankLt h (idx, v) := hpwc.1 _ htlmem
      have hhe : h ∈ d.enum := hperm.mem_iff.mp (List.mem_cons_self _ _)
      rcases hrank with hlt | ⟨heq2, hlt1⟩
      · exact absurd hlt (not_lt.mpr (hmax h hhe).1)
      · have := (hmax h hhe).2 hlt1
        rw [heq2] at this
        exact lt_irrefl _ this
    have hnodupS : (h :: tl).Nodup := hperm.symm.nodup hnodupE
    have hnotintl : h ∉ tl := (List.nodup_cons.mp hnodupS).1
    intro p hp hpidx
    rw [List.drop_one, List.tail_cons] at hp
    have hpe : p ∈ d.enum := hperm.mem_iff.mp (List.mem_cons_of_mem _ hp)
    have hpv : d.get? p.1 = some p.2 := get?_of_mem_enum hpe
    rw [hpidx, hv] at hpv
    have : p = (idx, v) := by
      rcases p with ⟨p1, p2⟩
      simp only at hpidx
      cases hpv
      rw [hpidx]
    rw [this, ← hh] at hp
    exact hnotintl hp

/-- A successful title lookup lands on a record with the requested title. -/
theorem find_index_some :
    ∀ {movies : List MovieRecord} {t : String} {j : Nat},
      find_index movies t = some j →
      ∃ r, movies.get? j = some r ∧ r.title = t
  | [], _, _, h => by simp [find_index] at h
  | r :: rest, t, j, h => by
    rw [find_index] at h
    by_cases hrt : r.title = t
    · rw [if_pos hrt] at h
      cases h
      exact ⟨r, rfl, hrt⟩
    · rw [if_neg hrt] at h
      rcases Option.map_eq_some'.mp h with ⟨j', hj', rfl⟩
      rcases find_index_some hj' with ⟨r', hr', ht'⟩
      exact ⟨r', hr', ht'⟩

/-- The title lookup returns the FIRST matching index: if position `j` holds
a matching record and every earlier position does not match, the lookup
returns `j`, silently ignoring any later duplicate. -/
theorem find_index_first :
    ∀ {movies : List MovieRecord} {t : String} {j : Nat} {r : MovieRecord},
      movies.get? j = some r → r.title = t →
      (∀ i, i < j → ∀ r', movies.get? i = some r' → r'.title ≠ t) →
      find_index movies t = some j
  | [], _, j, _, hj, _, _ => by simp [List.get?] at hj
  | x :: rest, t, 0, r, hj, ht, _ => by
    rw [List.get?] at hj
    cases hj
    rw [find_index, if_pos ht]
  | x :: rest, t, j + 1, r, hj, ht, hfirst => by
    rw [List.get?] at hj
    have hx : x.title ≠ t := hfirst 0 (Nat.succ_pos j) x rfl
    rw [find_index, if_neg hx,
      find_index_first hj ht (fun i hi r' hr' => hfirst (i + 1) (by omega) r' hr')]
    rfl

/-- When no record matches, the title lookup fails (and the source raises
`IndexError` from the empty `.index[0]`). -/
theorem find_index_none :
    ∀ {movies : List MovieRecord} {t : String},
      (∀ r ∈ movies, r.title ≠ t) → find_index movies t = none
  | [], _, _ => rfl
  | r :: rest, t, h => by
    rw [find_index, if_neg (h r (List.mem_cons_self _ _)),
      find_index_none (fun r' hr' => h r' (List.mem_cons_of_mem _ hr'))]
    rfl

/-- With pairwise-distinct titles, records at distinct positions carry
distinct titles. -/
theorem title_ne_of_nodup {movies : List MovieRecord}
    (hnodup : (movies.map (fun r => r.title)).Nodup)
    {i j : Nat} {r r' : MovieRecord} (hij : i ≠ j)
    (hi : movies.get? i = some r) (hj : movies.get? j = some r') :
    r.title ≠ r'.title := by
  intro heq
  have hi' : (movies.map (fun r => r.title)).get? i = some r.title := by
    rw [List.get?_eq_getElem?, List.getElem?_map, ← List.get?_eq_getElem?, hi]
    rfl
  have hj' : (movies.map (fun r => r.title)).get? j = some r'.title := by
    rw [List.get?_eq_getElem?, List.getElem?_map, ← List.get?_eq_getElem?, hj]
    rfl
  have hlen : i < (movies.map (fun r => r.title)).length := by
    rcases List.get?_eq_some.mp hi' with ⟨h, _⟩
    exact h
  rw [List.get?_eq_getElem?] at hi' hj'
  refine hij (List.getElem?_inj hlen hnodup ?_)
  rw [hi', hj', heq]

/-- A successful run of the lookup loop produces exactly one record per
selected pair, each read off the catalog at the pair's index. -/
theorem lookupRecs_ok {movies : List MovieRecord} :
    ∀ {l : List (Nat × ℚ)} {out : List MovieRecord},
      lookupRecs movies l = .ok out →
      out.length = l.length ∧ ∀ r ∈ out, ∃ p ∈ l, movies.get? p.1 = some r
  | [], out, h => by
    cases h
    exact ⟨rfl, by simp⟩
  | p :: rest, out, h => by
    rw [lookupRecs] at h
    split at h
    · exact Except.noConfusion h
    · rename_i r hg
      split at h
      · exact Except.noConfusion h
      · rename_i rs hrest
        cases h
        obtain ⟨hlen, hmem⟩ := lookupRecs_ok hrest
        refine ⟨by simp [hlen], fun r' hr' => ?_⟩
        rcases List.mem_cons.mp hr' with rfl | hr'
        · exact ⟨p, List.mem_cons_self _ _, hg⟩
        · rcases hmem r' hr' with ⟨q, hq, hqg⟩
          exact ⟨q, List.mem_cons_of_mem _ hq, hqg⟩

/-- The number of selected candidate pairs is `min 5 (N - 1)` where `N` is
the length of the similarity row. -/
theorem selected_length (d : List ℚ) :
    (selected d).length = min 5 (d.length - 1) := by
  simp [selected, rankedPairs, pySortedDesc]

/-- Every selected pair survives from the head-dropped ranking. -/
theorem selected_subset {d : List ℚ} {p : Nat × ℚ} (h : p ∈ selected d) :
    p ∈ (rankedPairs d).drop 1 :=
  List.take_subset _ _ h

/-- Elimination principle for a successful `recommend` call: it decomposes
into the title lookup, the row read, the candidate lookups, and the three
result lists, with only names and posters padded. -/
theorem recommend_ok_elim {movies : List MovieRecord}
    {similarity : List (List ℚ)} {fetch : Int → String} {movie : String}
    {names posters : List String} {ids : List Int}
    (hok : recommend movies similarity fetch movie = .ok (names, posters, ids)) :
    ∃ idx d recs, find_index movies movie = some idx ∧
      similarity.get? idx = some d ∧
      lookupRecs movies (selected d) = .ok recs ∧
      names = recs.map (fun r => r.title) ++
        List.replicate (5 - recs.length) "N/A" ∧
      posters = recs.map (fun r => fetch r.movie_id) ++
        List.replicate (5 - recs.length) PLACEHOLDER ∧
      ids = recs.map (fun r => r.movie_id) := by
  rw [recommend] at hok
  cases hfi : find_index movies movie with
  | none =>
    rw [hfi] at hok
    exact Except.noConfusion hok
  | some idx =>
    rw [hfi] at hok
    simp only [exceptOfOption] at hok
    cases hd : similarity.get? idx with
    | none =>
      rw [hd] at hok
      exact Except.noConfusion hok
    | some d =>
      rw [hd] at hok
      simp only at hok
      cases hr : lookupRecs movies (selected d) with
      | error e =>
        rw [hr] at hok
        exact Except.noConfusion hok
      | ok recs =>
        rw [hr] at hok
        simp only [Except.ok.injEq, Prod.mk.injEq, List.length_map] at hok
        exact ⟨idx, d, recs, rfl, hd, hr,
          hok.1.symm, hok.2.1.symm, hok.2.2.symm⟩

/-- Evaluation of the selection pipeline on the scenario row of "A". -/
theorem selected_row_A : selected [1, 9/10, 1/10] = [(1, 9/10), (2, 1/10)] := by
  norm_num [selected, rankedPairs, pySortedDesc, List.insertionSort,
    List.orderedInsert, List.enum, List.enumFrom]

/-- Full evaluation of `recommend` on the scenario catalog at "A", for an
arbitrary poster collaborator `f`: names padded to five with "N/A", posters
padded to five with the placeholder, ids left unpadded at length two. -/
theorem recommend3_eval (f : Int → String) : recommend catalog3 sim3 f "A" =
    .ok (["B", "C", "N/A", "N/A", "N/A"],
         [f 2, f 3, PLACEHOLDER, PLACEHOLDER, PLACEHOLDER],
         [(2 : Int), 3]) := by
  have h : selected [1, 9/10, 1/10] = [(1, 9/10), (2, 1/10)] := selected_row_A
  simp only [recommend, catalog3, sim3, find_index, exceptOfOption,
    lookupRecs, List.get?, h]
  norm_num [lookupRecs, exceptOfOption, h, List.get?, List.replicate]

/-- A catalog with a duplicated title "A" (ids 1 and 7), exercising the
duplicate-title behavior of the lookup. -/
def catalogDup : List MovieRecord := [⟨"A", 1⟩, ⟨"B", 2⟩, ⟨"A", 7⟩]

/-- C3: for every title present in the Catalog, the candidate list that
`recommend` materializes (`selected`, the `[1:6]` slice of the stable
descending sort `rankedPairs`) is ordered by similarity score non-increasing
in rank order, and ties between equal scores are broken by the stable
original catalog-index order, not by title or id: consecutive entries
satisfy `rankLt`, i.e. strictly smaller score or equal score with strictly
smaller original index. -/
theorem C3_ranking_order (distances : List ℚ) :
    (selected distances).Pairwise rankLt ∧
      (rankedPairs distances).Pairwise rankLt :=
  ⟨(rankedPairs_pairwise distances).sublist
      ((List.take_sublist _ _).trans (List.drop_sublist _ _)),
    rankedPairs_pairwise distances⟩

/-- C6: `recommend` mutates neither the Catalog nor the SimilarityMatrix:
threading the process-wide state through the call returns it unchanged for
every input title, because the source function only reads the globals
`movies` and `similarity`. -/
theorem C6_no_mutation (st : AppState) (fetch : Int → String) (movie : String) :
    (recommendApp st fetch movie).2 = st := rfl

/-- C5: `recommend` is deterministic: with the Catalog, SimilarityMatrix and
the poster-resolution collaborator held fixed (two collaborators agreeing on
every id), two calls with the same title yield identical output - same
names, same posters, same ids, in the same order. -/
theorem C5_deterministic (movies : List MovieRecord)
    (similarity : List (List ℚ)) (f g : Int → String) (movie : String)
    (hfg : ∀ i : Int, f i = g i) :
    recommend movies similarity f movie = recommend movies similarity g movie := by
  rw [funext hfg]

/-- Witness for C5 at the scenario data, with two syntactically different
but pointwise equal collaborators. -/
theorem C5_deterministic_witness :
    recommend catalog3 sim3 (fun _ => PLACEHOLDER) "A" =
      recommend catalog3 sim3 (fun i => if i < i then "impossible" else PLACEHOLDER) "A" :=
  C5_deterministic catalog3 sim3 _ _ "A" (fun i => by simp)

/-- C7: for every outcome of the underlying HTTP call (network error,
timeout, non-2xx status after retries, missing or null or empty image
field), `fetch_poster` never raises: it returns either a real image URL
(the TMDB image base joined with a path) or the fixed placeholder URL.
Moreover a poster failure never propagates into or aborts a `recommend`
call: the error/success status, the names and the ids of `recommend` are
identical for any two poster collaborators whatsoever. -/
theorem C7_poster_confined :
    (∀ o : HttpOutcome, fetch_poster o = PLACEHOLDER ∨
      ∃ p : String, fetch_poster o = "https://image.tmdb.org/t/p/w500" ++ p) ∧
    (∀ (movies : List MovieRecord) (similarity : List (List ℚ))
        (movie : String) (f g : Int → String),
        Except.map (fun r => (r.1, r.2.2)) (recommend movies similarity f movie) =
          Except.map (fun r => (r.1, r.2.2)) (recommend movies similarity g movie)) := by
  constructor
  · intro o
    cases o with
    | failure => exact Or.inl rfl
    | success pp bp =>
      cases hif : (if pyTruthy pp then pp else bp) with
      | none =>
        left
        simp [fetch_poster, hif]
      | some p =>
        by_cases hp : p = ""
        · left
          simp [fetch_poster, hif, hp]
        · right
          exact ⟨p, by simp [fetch_poster, hif, hp]⟩
  · intro movies similarity movie f g
    simp only [recommend]
    cases exceptOfOption (find_index movies movie) with
    | error e => rfl
    | ok idx =>
      dsimp only
      cases exceptOfOption (similarity.get? idx) with
      | error e => rfl
      | ok d =>
        dsimp only
        cases lookupRecs movies (selected d) with
        | error e => rfl
        | ok recs => rfl

/-- C4 counterexample: at the concrete absent title "Zodiac" on the scenario
catalog, `recommend` fails with the untyped index-out-of-range error raised
by the empty `.index[0]` selection, not with the typed `NotFoundError` that
the claim states. -/
theorem C4_counterexample :
    recommend catalog3 sim3 (fun _ => PLACEHOLDER) "Zodiac" =
        .error .indexError ∧
      recommend catalog3 sim3 (fun _ => PLACEHOLDER) "Zodiac" ≠
        .error .notFoundError := by
  have h : recommend catalog3 sim3 (fun _ => PLACEHOLDER) "Zodiac" =
      .error .indexError := by
    rw [recommend, find_index_none (by decide)]
    rfl
  exact ⟨h, by rw [h]; simp⟩

/-- C4 (amended): for every title string not present in the Catalog,
`recommend` fails - with the index-out-of-range error (`IndexError` from the
empty `.index[0]` match set), not a typed `NotFoundError` - and performs no
partial work: the result is exactly the error, produced before any output. -/
theorem C4_absent_title_fails (movies : List MovieRecord)
    (similarity : List (List ℚ)) (fetch : Int → String) (movie : String)
    (habs : ∀ r ∈ movies, r.title ≠ movie) :
    recommend movies similarity fetch movie = .error .indexError := by
  rw [recommend, find_index_none habs]
  rfl

/-- Witness for the amended C4 at a concrete absent title. -/
theorem C4_absent_title_fails_witness :
    recommend catalog3 sim3 (fun _ => PLACEHOLDER) "Q" = .error .indexError :=
  C4_absent_title_fails catalog3 sim3 (fun _ => PLACEHOLDER) "Q" (by decide)

/-- C9: for every title that matches more than one Catalog record (and in
general), the title-to-index lookup inside `recommend` returns the index of
the first matching record in catalog order: if position `j` matches and no
earlier position does, the lookup answers `j` - regardless of any later
duplicate, which is silently ignored. -/
theorem C9_first_match (movies : List MovieRecord) (t : String) (j : Nat)
    (r : MovieRecord) (hj : movies.get? j = some r) (ht : r.title = t)
    (hfirst : ∀ i, i < j → ∀ r', movies.get? i = some r' → r'.title ≠ t) :
    find_index movies t = some j :=
  find_index_first hj ht hfirst

/-- Witness for C9 on a catalog where the title "A" occurs at positions 0
and 2: the lookup returns 0, the first occurrence. -/
theorem C9_first_match_witness : find_index catalogDup "A" = some 0 :=
  C9_first_match catalogDup "A" 0 ⟨"A", 1⟩ rfl rfl
    (fun i hi _ _ => absurd hi (Nat.not_lt_zero i))

/-- C2: for every title present in the Catalog, `recommend` never includes
the queried title itself among the genuine (non-padding) returned entries,
under the stated precondition that the self-similarity score at the query's
own index is the maximum of its row and first among ties, and under the
Catalog invariant that titles are unique (spec §3). The genuine entries are
the first `ids.length` names, since only names and posters are padded. -/
theorem C2_no_self_inclusion (movies : List MovieRecord)
    (similarity : List (List ℚ)) (fetch : Int → String) (movie : String)
    (idx : Nat) (d : List ℚ) (v : ℚ) (names posters : List String)
    (ids : List Int)
    (hfind : find_index movies movie = some idx)
    (hrow : similarity.get? idx = some d)
    (hself : d.get? idx = some v)
    (hmax : ∀ p ∈ d.enum, p.2 ≤ v ∧ (p.1 < idx → p.2 < v))
    (hnodup : (movies.map (fun r => r.title)).Nodup)
    (hok : recommend movies similarity fetch movie = .ok (names, posters, ids)) :
    movie ∉ names.take ids.length := by
  obtain ⟨idx', d', recs, hfi', hd', hr', hnames, hposters, hids⟩ :=
    recommend_ok_elim hok
  rw [hfind] at hfi'
  cases hfi'
  rw [hrow] at hd'
  cases hd'
  intro hmem
  have hidslen : ids.length = recs.length := by rw [hids, List.length_map]
  have htake : names.take ids.length = recs.map (fun r => r.title) := by
    rw [hnames, hidslen, ← List.length_map recs (fun r => r.title),
      List.take_left]
  rw [htake] at hmem
  rcases List.mem_map.mp hmem with ⟨rec, hrecmem, hrectitle⟩
  obtain ⟨_, hrecs⟩ := lookupRecs_ok hr'
  rcases hrecs rec hrecmem with ⟨p, hpsel, hpget⟩
  have hpne : p.1 ≠ idx := drop_one_ne_idx hself hmax p (selected_subset hpsel)
  rcases find_index_some hfind with ⟨r0, hr0, hr0t⟩
  exact title_ne_of_nodup hnodup hpne hpget hr0 (by rw [hrectitle, hr0t])

/-- Witness for C2 at the scenario data: querying "A" (self score 1, the
strict row maximum) yields genuine entries ["B", "C"], which exclude "A". -/
theorem C2_no_self_inclusion_witness :
    "A" ∉ (["B", "C", "N/A", "N/A", "N/A"] : List String).take
        ([(2 : Int), 3].length) :=
  C2_no_self_inclusion catalog3 sim3 (fun _ => PLACEHOLDER) "A" 0
    [1, 9/10, 1/10] 1 ["B", "C", "N/A", "N/A", "N/A"]
    [PLACEHOLDER, PLACEHOLDER, PLACEHOLDER, PLACEHOLDER, PLACEHOLDER]
    [2, 3] rfl rfl rfl
    (by norm_num [List.enum, List.enumFrom]) (by decide)
    (recommend3_eval (fun _ => PLACEHOLDER))

/-- C10: `recommend` returns three parallel lists whose lengths differ at
the padding edge case: for every valid title (on a dimensionally consistent
matrix), the names and posters lists have length exactly 5 - padded with
"N/A" and the placeholder URL - while the ids list has length
`min 5 (N - 1)` and is never padded, so for `N ≤ 5` the ids list is shorter
than the other two. -/
theorem C10_parallel_lengths (movies : List MovieRecord)
    (similarity : List (List ℚ)) (fetch : Int → String) (movie : String)
    (names posters : List String) (ids : List Int)
    (hdim : ∀ row ∈ similarity, row.length = movies.length)
    (hok : recommend movies similarity fetch movie = .ok (names, posters, ids)) :
    names.length = 5 ∧ posters.length = 5 ∧
      ids.length = min 5 (movies.length - 1) := by
  obtain ⟨idx, d, recs, hfi, hd, hr, hnames, hposters, hids⟩ :=
    recommend_ok_elim hok
  have hdlen : d.length = movies.length := hdim d (List.get?_mem hd)
  obtain ⟨hreclen, _⟩ := lookupRecs_ok hr
  have hsel : recs.length = min 5 (movies.length - 1) := by
    rw [hreclen, selected_length, hdlen]
  have hle : recs.length ≤ 5 := by
    rw [hsel]; exact min_le_left _ _
  refine ⟨?_, ?_, ?_⟩
  · rw [hnames, List.length_append, List.length_map, List.length_replicate]
    omega
  · rw [hposters, List.length_append, List.length_map, List.length_replicate]
    omega
  · rw [hids, List.length_map, hsel]

/-- Witness for C10 at the scenario data: N = 3 ≤ 5, names and posters have
length 5, ids has length `min 5 2 = 2`. -/
theorem C10_parallel_lengths_witness :
    (["B", "C", "N/A", "N/A", "N/A"] : List String).length = 5 ∧
      ([PLACEHOLDER, PLACEHOLDER, PLACEHOLDER, PLACEHOLDER,
        PLACEHOLDER] : List String).length = 5 ∧
      ([(2 : Int), 3]).length = min 5 (catalog3.length - 1) :=
  C10_parallel_lengths catalog3 sim3 (fun _ => PLACEHOLDER) "A"
    ["B", "C", "N/A", "N/A", "N/A"]
    [PLACEHOLDER, PLACEHOLDER, PLACEHOLDER, PLACEHOLDER, PLACEHOLDER]
    [2, 3] (by decide) (recommend3_eval (fun _ => PLACEHOLDER))

/-- C1: the claim says the output is padded to length exactly k = 5 with
`("N/A", null)` sentinel pairs when fewer than 5 candidates exist. The code
pads only the names and posters lists; the ids list receives no `null`
padding. Evaluating the code at the failing input (the 3-movie scenario
catalog, query "A"): names and posters come back with length 5, but the ids
list has length 2 - so the `(title, id)` output cannot consist of 5 pairs
padded with `("N/A", null)`, and the UI's unconditional reads of
`ids[0]..ids[4]` would fault. -/
theorem C1_ids_not_padded (f : Int → String) :
    Except.map (fun r => (r.1.length, r.2.1.length, r.2.2.length))
        (recommend catalog3 sim3 f "A") = .ok (5, 5, 2) := by
  rw [recommend3_eval f]
  rfl

/-- C8: evaluating the code at the specification's scenario (Catalog
[("A",1),("B",2),("C",3)], the given matrix, query "A"): the names list is
["B", "C", "N/A", "N/A", "N/A"] and the posters are padded with the
placeholder, but the ids list is [2, 3] with no `null` entries - the claimed
output [("B",2),("C",3),("N/A",null),("N/A",null),("N/A",null)] does not
occur, because ids are never padded. -/
theorem C8_scenario (f : Int → String) :
    recommend catalog3 sim3 f "A" =
      .ok (["B", "C", "N/A", "N/A", "N/A"],
           [f 2, f 3, PLACEHOLDER, PLACEHOLDER, PLACEHOLDER],
           [(2 : Int), 3]) :=
  recommend3_eval f

end MovieRec
